import Mathlib

/-!
Verification of the filebin repository core: the name-allocation service
(`server/request_name.py`) and the SFTP authentication negotiation
(`client/main.py`), embedded shallowly.

Conventions of the embedding:
* Machine time is modelled at second granularity.  A civil UTC datetime is a
  `Datetime` record; `toTimestamp` is the proleptic-Gregorian conversion that
  Python's `datetime.timestamp()` performs for an aware UTC datetime.
* `dateutil.relativedelta(months=1)` is `addOneMonth`: advance the month by
  one, clamping the day to the target month's length.
* The SQLite store is a list of rows `(obfuscated_name, expire_time)` in
  insertion order.  The `UNIQUE` constraint of the schema is modelled inside
  `insertRow`, which refuses a duplicated name, mirroring the
  `sqlite3.IntegrityError` the real INSERT would raise.
* `random.choices(ascii_lowercase + digits, k=6)` is modelled by a choice
  function `Fin 6 → Fin 36` indexing into the alphabet; streams of such
  choices stand for the successive calls of `gen_random`.
* paramiko is an external collaborator: each `SSHClient.connect` call is an
  environment-chosen `ConnectResult` — it either returns (with the
  transport's `authenticated` flag either way), raises
  `BadAuthenticationType` (the only exception the client code catches), or
  raises a different authentication failure such as paramiko's
  `AuthenticationException` for wrong credentials (which the client code
  does not catch).
* Unbounded `while` loops are given fuel; theorems quantify over any
  sufficient fuel, and running out of fuel is a distinguished outcome that
  is never conflated with a genuine result.
-/

/-! ### Calendar model (Python `datetime` / `dateutil.relativedelta`) -/

/-- Gregorian leap-year test, as implemented by Python's calendar. -/
def isLeap (y : ℕ) : Bool :=
  (y % 4 == 0 && y % 100 != 0) || y % 400 == 0

/-- Length of month `m` (1-based) of year `y`. -/
def daysInMonth (y m : ℕ) : ℕ :=
  if m = 2 then (if isLeap y then 29 else 28)
  else if m = 4 ∨ m = 6 ∨ m = 9 ∨ m = 11 then 30
  else 31

/-- Days of year `y` that precede the first day of month `m` (1-based). -/
def daysBeforeMonth (y m : ℕ) : ℕ :=
  (match m with
   | 1 => 0 | 2 => 31 | 3 => 59 | 4 => 90 | 5 => 120 | 6 => 151
   | 7 => 181 | 8 => 212 | 9 => 243 | 10 => 273 | 11 => 304 | _ => 334)
  + (if 3 ≤ m then (if isLeap y then 1 else 0) else 0)

/-- Number of days in year `y`. -/
def daysInYear (y : ℕ) : ℕ := if isLeap y then 366 else 365

/-- Days from 0000-01-01 to the first day of year `y` (proleptic Gregorian;
year 0 is a leap year). -/
def daysBeforeYear (y : ℕ) : ℕ :=
  365 * y + (y + 3) / 4 - (y + 99) / 100 + (y + 399) / 400

/-- A civil UTC datetime at second granularity. -/
structure Datetime where
  year : ℕ
  month : ℕ
  day : ℕ
  hour : ℕ
  minute : ℕ
  second : ℕ
deriving DecidableEq, Repr

/-- The field ranges Python's `datetime` constructor enforces. -/
def Datetime.Valid (d : Datetime) : Prop :=
  1 ≤ d.month ∧ d.month ≤ 12 ∧ 1 ≤ d.day ∧ d.day ≤ daysInMonth d.year d.month
    ∧ d.hour ≤ 23 ∧ d.minute ≤ 59 ∧ d.second ≤ 59

instance (d : Datetime) : Decidable d.Valid := by
  unfold Datetime.Valid; infer_instance

/-- Unix timestamp (seconds, UTC) of a datetime: what
`datetime(..., tzinfo=timezone.utc).timestamp()` returns, at second
granularity. -/
def toTimestamp (d : Datetime) : ℤ :=
  86400 * ((daysBeforeYear d.year : ℤ) - (daysBeforeYear 1970 : ℤ)
      + (daysBeforeMonth d.year d.month : ℤ) + ((d.day : ℤ) - 1))
    + 3600 * (d.hour : ℤ) + 60 * (d.minute : ℤ) + (d.second : ℤ)

/-- `d + relativedelta(months=1)`: advance to the next month, keeping the
day-of-month but clamping it to the target month's length (dateutil
semantics). -/
def addOneMonth (d : Datetime) : Datetime :=
  let y := if d.month = 12 then d.year + 1 else d.year
  let m := if d.month = 12 then 1 else d.month + 1
  { year := y, month := m, day := min d.day (daysInMonth y m)
    hour := d.hour, minute := d.minute, second := d.second }

/-- The datetime whose timestamp `get_random_unused_obfuscated_name` stores:
`tmp = now + relativedelta(months=1)` followed by
`datetime(tmp.year, tmp.month, tmp.day, tzinfo=utc)` — i.e. the date part of
`tmp` at midnight. -/
def expireDatetime (now : Datetime) : Datetime :=
  let tmp := addOneMonth now
  { year := tmp.year, month := tmp.month, day := tmp.day
    hour := 0, minute := 0, second := 0 }

/-- The `expire` integer computed at allocation time (request_name.py:41-42). -/
def expireOf (now : Datetime) : ℤ := toTimestamp (expireDatetime now)

/-! ### Names, the alphabet and `gen_random` (request_name.py:13-14) -/

/-- An obfuscated name, as its character sequence. -/
abbrev Name : Type := List Char

/-- `string.ascii_lowercase`. -/
def asciiLowercase : List Char :=
  ['a', 'b', 'c', 'd', 'e', 'f', 'g', 'h', 'i', 'j', 'k', 'l', 'm',
   'n', 'o', 'p', 'q', 'r', 's', 't', 'u', 'v', 'w', 'x', 'y', 'z']

/-- `string.digits`. -/
def asciiDigits : List Char :=
  ['0', '1', '2', '3', '4', '5', '6', '7', '8', '9']

/-- The sampling alphabet `string.ascii_lowercase + string.digits`. -/
def alphabet : List Char := asciiLowercase ++ asciiDigits

/-- `gen_random()`: join 6 characters chosen from the 36-symbol alphabet.
The random choices of `random.choices(..., k=6)` are supplied as the
function `pick`. -/
def gen_random (pick : Fin 6 → Fin 36) : Name :=
  List.ofFn (fun i : Fin 6 => alphabet.get (Fin.cast (by decide) (pick i)))

/-! ### The store and the spliced SELECT of `check_name`
(request_name.py:31-33)

`check_name` builds its query by f-string splicing:
`f'SELECT EXISTS(SELECT 1 FROM assets WHERE obfuscated_name="{name}");'`.
We model the query text the database receives and the database's reading of
it.  A name containing `"` escapes the quoted token and the model reports
the query malformed.  For a quote-free name, SQLite reads the double-quoted
token identifier-first: a token naming a column of `assets` (ASCII
case-folded) becomes a column reference — `obfuscated_name="id"` compares
against the `id` column, not the string `'id'` — and only a token matching
no column falls back to the string-literal misfeature. -/

/-- A stored row: `(obfuscated_name, expire_time)`. -/
abbrev Row : Type := Name × ℤ

/-- The `assets` table, in insertion order. -/
abbrev Store : Type := List Row

/-- Whether a row with this `obfuscated_name` exists (the semantics of the
well-formed EXISTS query). -/
def containsName (store : Store) (n : Name) : Bool :=
  store.any (fun r => decide (r.1 = n))

/-- The query text before the spliced name. -/
def queryHead : List Char :=
  "SELECT EXISTS(SELECT 1 FROM assets WHERE obfuscated_name=\x22".toList

/-- The query text after the spliced name. -/
def queryTail : List Char := "\x22);".toList

/-- The exact query text `check_name` sends for `name`. -/
def buildCheckQuery (n : Name) : List Char := queryHead ++ (n ++ queryTail)

/-- The database's reading of a check query: recover the spliced name when
the text between the fixed head and tail is a single well-formed
double-quoted literal (no stray `"`), otherwise `none` (malformed). -/
def parseCheckQuery (q : List Char) : Option Name :=
  let r := q.drop queryHead.length
  let mid : Name := r.take (r.length - queryTail.length)
  let rest := r.drop (r.length - queryTail.length)
  if q.take queryHead.length = queryHead ∧ rest = queryTail
      ∧ ∀ c ∈ mid, c ≠ '\x22' then
    some mid
  else
    none

/-- Database-level error conditions. -/
inductive SqlErr where
  | malformed
  | constraintViolation
deriving DecidableEq, Repr

/-- The column names of the `assets` table (request_name.py:57-60).  SQLite
resolves a double-quoted token that equals one of these — identifiers fold
ASCII case — as a COLUMN REFERENCE; only a token that matches no column
falls back to the string-literal misfeature. -/
def columnNames : List Name :=
  ["id".toList, "obfuscated_name".toList, "expire_time".toList]

/-- Whether the spliced token resolves to a column of `assets` (SQLite
folds ASCII case when resolving identifiers). -/
def isColumnRef (n : Name) : Bool :=
  columnNames.any (fun c => decide (c = n.map Char.toLower))

/-- Nonempty all-digit character list. -/
def isDigits (l : List Char) : Bool := !l.isEmpty && l.all Char.isDigit

/-- Value of an all-digit character list. -/
def digitsVal (l : List Char) : ℕ :=
  l.foldl (fun a c => 10 * a + (c.toNat - 48)) 0

/-- SQLite's text-to-number reading used by numeric affinity, on the token
alphabet of this program: a text converts iff it is wholly a well-formed
number.  Over `[a-z0-9]` (no sign, no dot) that is exactly `digit+` or
`digit+ e digit+`; we evaluate both at their mathematical value (the
rounding SQLite's 64-bit/double storage applies to astronomically large
values is beyond every statement below). -/
def nameNumeric (n : Name) : Option ℕ :=
  if isDigits n then some (digitsVal n)
  else
    match n.splitOn 'e' with
    | [a, b] =>
      if isDigits a && isDigits b then some (digitsVal a * 10 ^ digitsVal b)
      else none
    | _ => none

/-- Evaluation of `EXISTS(SELECT 1 FROM assets WHERE obfuscated_name=<col>)`
when the spliced token resolved to the column `c` (already case-folded):
* `obfuscated_name = obfuscated_name` holds on every row (NOT NULL), so the
  EXISTS is simply non-emptiness;
* against the INTEGER columns `id` and `expire_time`, numeric affinity is
  applied to the TEXT `obfuscated_name` value: a row matches iff its name
  reads as a number equal to the row's id (ids are 1, 2, ... in insertion
  order — AUTOINCREMENT, and nothing ever deletes) resp. to its
  `expire_time`. -/
def evalColRef (store : Store) (c : Name) : Bool :=
  if c = "obfuscated_name".toList then !store.isEmpty
  else if c = "id".toList then
    store.enum.any (fun p => decide (nameNumeric p.2.1 = some (p.1 + 1)))
  else
    store.any (fun r => decide ((nameNumeric r.1).map (fun v => (v : ℤ)) = some r.2))

/-- Evaluate a check query against the store: a malformed splice errors; a
token naming a column compares `obfuscated_name` against that column; any
other token is read as a string literal, giving membership. -/
def sqlEvalCheck (store : Store) (q : List Char) : Except SqlErr Bool :=
  match parseCheckQuery q with
  | some t =>
    if isColumnRef t then .ok (evalColRef store (t.map Char.toLower))
    else .ok (containsName store t)
  | none => .error .malformed

/-- `SQLite.check_name`: splice the name into the SELECT and run it. -/
def check_name (store : Store) (n : Name) : Except SqlErr Bool :=
  sqlEvalCheck store (buildCheckQuery n)

/-- The parameterized INSERT of the allocator, together with the schema's
`UNIQUE` constraint on `obfuscated_name`: inserting a duplicate name is a
constraint violation (`sqlite3.IntegrityError`). -/
def insertRow (store : Store) (n : Name) (e : ℤ) : Except SqlErr Store :=
  if containsName store n then .error .constraintViolation
  else .ok (store ++ [(n, e)])

/-! ### The allocator `get_random_unused_obfuscated_name`
(request_name.py:35-48) -/

/-- Allocation failure modes: the rejection-sampling loop ran out of fuel
(the real loop is unbounded), or the INSERT raised — the code has no
try/except around it, so a constraint violation propagates to the caller. -/
inductive AllocErr where
  | noCandidate
  | duplicateName
deriving DecidableEq, Repr

/-- The `while self.check_name(candidate)` rejection-sampling loop: draw
`gen_random` candidates from the stream `picks` until one is not in the
store.  Returns the candidate (and the stream index that produced it). -/
def findUnused : ℕ → (ℕ → Fin 6 → Fin 36) → ℕ → Store → Option (Name × ℕ)
  | 0, _, _, _ => none
  | fuel + 1, picks, i, store =>
    let c := gen_random (picks i)
    match check_name store c with
    | .ok true => findUnused fuel picks (i + 1) store
    | .ok false => some (c, i)
    | .error _ => none

/-- `SQLite.get_random_unused_obfuscated_name`.  `now` is the instant
`datetime.now(timezone.utc)` returns; `interfere` models what concurrent
writers insert into the store between the existence check and the INSERT
(sequential execution is `interfere = fun s => s`).  On success, returns
the candidate, the stored expiration and the updated store. -/
def get_random_unused_obfuscated_name (fuel : ℕ) (picks : ℕ → Fin 6 → Fin 36)
    (now : Datetime) (store : Store) (interfere : Store → Store) :
    Except AllocErr (Name × ℤ × Store) :=
  match findUnused fuel picks 0 store with
  | none => .error .noCandidate
  | some (c, _) =>
    let expire := expireOf now
    match insertRow (interfere store) c expire with
    | .error _ => .error .duplicateName
    | .ok s2 => .ok (c, expire, s2)

/-- `n` sequential allocation calls against `store`; call `k` draws its
candidates from the stream `picksN k`.  Returns the names in call order and
the final store. -/
def allocN (fuel : ℕ) (picksN : ℕ → ℕ → Fin 6 → Fin 36) (now : Datetime) :
    ℕ → Store → Except AllocErr (List Name × Store)
  | 0, store => .ok ([], store)
  | n + 1, store =>
    match get_random_unused_obfuscated_name fuel (picksN 0) now store (fun s => s) with
    | .error e => .error e
    | .ok (c, _, s2) =>
      match allocN fuel (fun k => picksN (k + 1)) now n s2 with
      | .error e => .error e
      | .ok (names, final) => .ok (c :: names, final)

/-! ### The `SQLite` context manager (request_name.py:17-29)

`with SQLite(file) as sql: body` — `__enter__` opens the connection,
`__exit__` runs `self.conn.commit(); self.conn.close()`.  Python's `with`
statement calls `__exit__` on every exit path, also when the body raises;
the body is modelled as an arbitrary state transformer that may end in an
exception. -/

/-- The connection's state: writes not yet committed, the durable database
content, and whether the connection is open. -/
structure ConnState where
  pending : List Row
  db : List Row
  isOpen : Bool
deriving DecidableEq

/-- `__enter__`: `sqlite3.connect` opens a fresh connection onto the stored
database, with no pending writes. -/
def sqliteEnter (db0 : List Row) : ConnState :=
  { pending := [], db := db0, isOpen := true }

/-- `conn.commit()`. -/
def sqliteCommit (c : ConnState) : ConnState :=
  { c with db := c.db ++ c.pending, pending := [] }

/-- `conn.close()`. -/
def sqliteClose (c : ConnState) : ConnState :=
  { c with isOpen := false }

/-- `SQLite.__exit__`: commit, then close. -/
def sqliteExit (c : ConnState) : ConnState := sqliteClose (sqliteCommit c)

/-- The `with SQLite(...)` statement: enter, run the body (which returns a
result — possibly an exception — and the connection state it left behind),
then run `__exit__` on that state unconditionally. -/
def withSQLite {E α : Type} (db0 : List Row)
    (body : ConnState → Except E α × ConnState) : Except E α × ConnState :=
  let r := body (sqliteEnter db0)
  (r.1, sqliteExit r.2)

/-! ### The SFTP client: authentication negotiation (client/main.py:34-86)

The transport collaborator (paramiko) is the environment: each
`ssh.connect` call either returns — after which the code reads
`get_transport().authenticated` — or raises.  The code catches exactly
`paramiko.ssh_exception.BadAuthenticationType`; any other failure, in
particular the `AuthenticationException` paramiko raises for wrong
credentials, is not caught and propagates out of `SFTP.__init__`. -/

/-- Outcome of one `ssh.connect` attempt, chosen by the environment. -/
inductive ConnectResult where
  /-- The call returned; the transport's `authenticated` flag is `auth`. -/
  | ok (auth : Bool)
  /-- The call raised `BadAuthenticationType` (method not allowed by the
  server) — the one exception `SFTP.__init__` catches. -/
  | raiseBadAuthType
  /-- The call raised some other failure (e.g. paramiko's
  `AuthenticationException` for a wrong credential) — not caught. -/
  | raiseAuthFailed
deriving DecidableEq, Repr

/-- The remote endpoint's behaviour for the two kinds of attempt. -/
structure Env where
  passwordAttempt : ConnectResult
  keyAttempt : ConnectResult
deriving DecidableEq, Repr

/-- Authentication method kinds, in the order the code tries them. -/
inductive Method where
  | password
  | key
deriving DecidableEq, Repr

/-- Observable outcome of `SFTP.__init__`, with the ordered trace of the
methods attempted. -/
inductive InitResult where
  /-- Connected; `method` is the branch whose attempt authenticated. -/
  | authenticated (method : Method) (tried : List Method)
  /-- The final `raise SSHException(f'Could not connect ...')`. -/
  | exhausted (tried : List Method) (msg : String)
  /-- An uncaught exception escaped `__init__` (anything other than
  `BadAuthenticationType` raised during an attempt). -/
  | raised (tried : List Method)
  /-- The interactive key-decryption loop never terminated (out of fuel). -/
  | diverged (tried : List Method)
deriving DecidableEq, Repr

/-- A private key file: whether the key material is encrypted, the
passphrase that decrypts it, and whether the decrypted key can sign. -/
structure KeyFile where
  encrypted : Bool
  correctPass : String
  canSign : Bool
deriving DecidableEq, Repr

/-- `SFTP.open_key`'s `while not opened` loop.  Each iteration:
`RSAKey.from_private_key(keyfile)` raises `PasswordRequiredException` when
the key is encrypted, upon which the code prompts (`getpass`) and retries
with the passphrase, treating a wrong passphrase (`SSHException`) as `pass`;
`opened` is set from `key.can_sign()`.  `prompts i` is the `i`-th
passphrase the user types; returns `(can_sign, total prompts issued)`. -/
def openKeyGo : ℕ → KeyFile → (ℕ → String) → ℕ → Option (Bool × ℕ)
  | 0, _, _, _ => none
  | fuel + 1, kf, prompts, i =>
    if kf.encrypted then
      if prompts i = kf.correctPass then
        if kf.canSign then some (kf.canSign, i + 1)
        else openKeyGo fuel kf prompts (i + 1)
      else openKeyGo fuel kf prompts (i + 1)
    else
      if kf.canSign then some (kf.canSign, i)
      else openKeyGo fuel kf prompts i

/-- `SFTP.open_key` (client/main.py:69-86). -/
def openKey (fuel : ℕ) (kf : KeyFile) (prompts : ℕ → String) :
    Option (Bool × ℕ) :=
  openKeyGo fuel kf prompts 0

/-- Python truthiness of the `password` argument in `if password and not
connected`: `None` and the empty string are falsy. -/
def pwTruthy : Option String → Bool
  | none => false
  | some s => !(s == "")

/-- The message of the final `SSHException`: it names the identity
(username), the endpoint (hostname and port) and that the supplied methods
were exhausted. -/
def connMsg (username hostname : String) (port : ℕ) : String :=
  "Could not connect to " ++ username ++ "@" ++ hostname ++ ":"
    ++ toString port ++ " using provided auth method(s)"

/-- The key branch of `SFTP.__init__` (client/main.py:48-58), reached with
the attempts `tried` already made and the connection still unauthenticated:
if a keyfile was given, open it (interactive loop) and attempt key
authentication, catching only `BadAuthenticationType`; finally, if still
not connected, raise the descriptive `SSHException`. -/
def keyPhase (env : Env) (hostname : String) (port : ℕ) (username : String)
    (keyfile : Option KeyFile) (prompts : ℕ → String) (fuel : ℕ)
    (tried : List Method) : InitResult :=
  match keyfile with
  | none => .exhausted tried (connMsg username hostname port)
  | some kf =>
    match openKey fuel kf prompts with
    | none => .diverged tried
    | some _ =>
      match env.keyAttempt with
      | .ok auth =>
        if auth then .authenticated .key (tried ++ [.key])
        else .exhausted (tried ++ [.key]) (connMsg username hostname port)
      | .raiseBadAuthType =>
        .exhausted (tried ++ [.key]) (connMsg username hostname port)
      | .raiseAuthFailed => .raised (tried ++ [.key])

/-- `SFTP.__init__` (client/main.py:35-58): try the password first (if
truthy), re-checking `get_transport().authenticated` after the call and
catching only `BadAuthenticationType`; if still not connected, fall
through to the key branch; if nothing authenticated, raise the descriptive
`SSHException`. -/
def sftpInit (env : Env) (hostname : String) (port : ℕ) (username : String)
    (password : Option String) (keyfile : Option KeyFile)
    (prompts : ℕ → String) (fuel : ℕ) : InitResult :=
  if pwTruthy password then
    match env.passwordAttempt with
    | .ok auth =>
      if auth then .authenticated .password [.password]
      else keyPhase env hostname port username keyfile prompts fuel [.password]
    | .raiseBadAuthType =>
      keyPhase env hostname port username keyfile prompts fuel [.password]
    | .raiseAuthFailed => .raised [.password]
  else
    keyPhase env hostname port username keyfile prompts fuel []

/-! ### Small helpers shared by the theorems below -/

/-- Whether an `Except` computation succeeded. -/
def isOk {ε α : Type} : Except ε α → Bool
  | .ok _ => true
  | .error _ => false

/-- A fixed allocation instant used by concrete witnesses:
2021-01-15 12:00:00 UTC. -/
def nowW : Datetime := ⟨2021, 1, 15, 12, 0, 0⟩

/-! ### Helper lemmas about the calendar -/

set_option maxHeartbeats 1000000 in
theorem daysBeforeYear_succ (y : ℕ) :
    daysBeforeYear (y + 1) = daysBeforeYear y + daysInYear y := by
  have hl : isLeap y = true ↔ ((y % 4 = 0 ∧ ¬ y % 100 = 0) ∨ y % 400 = 0) := by
    simp [isLeap]
  unfold daysBeforeYear daysInYear
  by_cases h : isLeap y = true
  · rw [if_pos h]; rw [hl] at h; omega
  · rw [if_neg h]; rw [hl] at h; push_neg at h; omega

theorem daysInMonth_ge (y m : ℕ) : 28 ≤ daysInMonth y m := by
  unfold daysInMonth
  split_ifs <;> omega

theorem daysInMonth_le (y m : ℕ) : daysInMonth y m ≤ 31 := by
  unfold daysInMonth
  split_ifs <;> omega

theorem daysBeforeMonth_succ (y m : ℕ) (h1 : 1 ≤ m) (h2 : m ≤ 11) :
    daysBeforeMonth y (m + 1) = daysBeforeMonth y m + daysInMonth y m := by
  interval_cases m <;>
    · by_cases hL : isLeap y = true <;>
        simp [daysBeforeMonth, daysInMonth, hL]

theorem daysBeforeMonth_one (y : ℕ) : daysBeforeMonth y 1 = 0 := by
  simp [daysBeforeMonth]

theorem daysBeforeMonth_twelve (y : ℕ) :
    daysBeforeMonth y 12 + daysInMonth y 12 = daysInYear y := by
  by_cases hL : isLeap y = true <;>
    simp [daysBeforeMonth, daysInMonth, daysInYear, hL]

/-- Day-count shift of the `+ relativedelta(months=1)` step: moving to the
next month advances the days-elapsed count by exactly the length of the
current month (keeping the day-of-month fixed for the moment). -/
theorem nextMonth_day_shift (d : Datetime) (h1 : 1 ≤ d.month) (h2 : d.month ≤ 12) :
    (daysBeforeYear (addOneMonth d).year : ℤ)
        + (daysBeforeMonth (addOneMonth d).year (addOneMonth d).month : ℤ)
      = (daysBeforeYear d.year : ℤ) + (daysBeforeMonth d.year d.month : ℤ)
        + (daysInMonth d.year d.month : ℤ) := by
  by_cases hm : d.month = 12
  · have ha : (addOneMonth d).year = d.year + 1 := by simp [addOneMonth, hm]
    have hb : (addOneMonth d).month = 1 := by simp [addOneMonth, hm]
    rw [ha, hb, daysBeforeYear_succ, daysBeforeMonth_one, hm]
    have h12 := daysBeforeMonth_twelve d.year
    push_cast
    omega
  · have ha : (addOneMonth d).year = d.year := by simp [addOneMonth, hm]
    have hb : (addOneMonth d).month = d.month + 1 := by simp [addOneMonth, hm]
    rw [ha, hb, daysBeforeMonth_succ d.year d.month h1 (by omega)]
    push_cast
    ring

/-! ### C1: the stored expiration -/

/-- C1, counterexample: the spec says the expiration is midnight UTC of the
FIRST day of the month after the allocation instant.  Allocating at
2021-01-15 12:00:00 UTC, the code stores midnight of 2021-02-15 — the same
day-of-month one month later — whose day is 15, not 1, and whose timestamp
differs from that of 2021-02-01 00:00:00 UTC. -/
theorem expire_not_first_of_month_cx :
    (expireDatetime ⟨2021, 1, 15, 12, 0, 0⟩).day = 15
  ∧ expireDatetime ⟨2021, 1, 15, 12, 0, 0⟩ = ⟨2021, 2, 15, 0, 0, 0⟩
  ∧ expireOf ⟨2021, 1, 15, 12, 0, 0⟩ ≠ toTimestamp ⟨2021, 2, 1, 0, 0, 0⟩ := by
  refine ⟨rfl, rfl, ?_⟩
  decide

/-- C1, amended: for every valid allocation instant, the stored expiration
is a midnight-UTC timestamp (≡ 0 mod 86400) of the day in the following
calendar month that keeps the allocation's day-of-month, clamped to that
month's length; it is strictly greater than the allocation instant, at
least one day ahead, and at most 31 days ahead.  (It is generally NOT the
1st of a month.) -/
theorem expire_next_month_midnight (d : Datetime) (h : d.Valid) :
    expireOf d % 86400 = 0
  ∧ toTimestamp d < expireOf d
  ∧ toTimestamp d + 86400 ≤ expireOf d
  ∧ expireOf d ≤ toTimestamp d + 31 * 86400
  ∧ (expireDatetime d).day
      = min d.day (daysInMonth (addOneMonth d).year (addOneMonth d).month)
  ∧ (expireDatetime d).hour = 0 ∧ (expireDatetime d).minute = 0
  ∧ (expireDatetime d).second = 0 := by
  obtain ⟨hm1, hm2, hd1, hd2, hh, hmi, hs⟩ := h
  have hshift := nextMonth_day_shift d hm1 hm2
  have hexp : expireOf d
      = 86400 * ((daysBeforeYear (addOneMonth d).year : ℤ)
          - (daysBeforeYear 1970 : ℤ)
          + (daysBeforeMonth (addOneMonth d).year (addOneMonth d).month : ℤ)
          + (((addOneMonth d).day : ℤ) - 1)) := by
    show toTimestamp (expireDatetime d) = _
    unfold toTimestamp
    simp only [show (expireDatetime d).hour = 0 from rfl,
      show (expireDatetime d).minute = 0 from rfl,
      show (expireDatetime d).second = 0 from rfl,
      show (expireDatetime d).year = (addOneMonth d).year from rfl,
      show (expireDatetime d).month = (addOneMonth d).month from rfl,
      show (expireDatetime d).day = (addOneMonth d).day from rfl]
    push_cast
    ring
  have hdd : ((addOneMonth d).day : ℤ)
      = min (d.day : ℤ) ((daysInMonth (addOneMonth d).year (addOneMonth d).month : ℕ) : ℤ) := by
    have hr : (addOneMonth d).day
        = min d.day (daysInMonth (addOneMonth d).year (addOneMonth d).month) := rfl
    rw [hr]
    push_cast
    rfl
  have hts : toTimestamp d
      = 86400 * ((daysBeforeYear d.year : ℤ) - (daysBeforeYear 1970 : ℤ)
          + (daysBeforeMonth d.year d.month : ℤ) + ((d.day : ℤ) - 1))
        + 3600 * (d.hour : ℤ) + 60 * (d.minute : ℤ) + (d.second : ℤ) := rfl
  have hge1 := daysInMonth_ge d.year d.month
  have hle1 := daysInMonth_le d.year d.month
  have hge2 := daysInMonth_ge (addOneMonth d).year (addOneMonth d).month
  have hle2 := daysInMonth_le (addOneMonth d).year (addOneMonth d).month
  refine ⟨?_, ?_, ?_, ?_, rfl, rfl, rfl, rfl⟩
  · rw [hexp]
    exact Int.mul_emod_right _ _
  · omega
  · omega
  · omega

/-- C1, witness: the amended theorem evaluated at 2021-01-15 12:00:00 UTC. -/
theorem expire_next_month_midnight_wit :
    expireOf ⟨2021, 1, 15, 12, 0, 0⟩ % 86400 = 0
  ∧ toTimestamp ⟨2021, 1, 15, 12, 0, 0⟩ < expireOf ⟨2021, 1, 15, 12, 0, 0⟩
  ∧ expireOf ⟨2021, 1, 15, 12, 0, 0⟩
      ≤ toTimestamp ⟨2021, 1, 15, 12, 0, 0⟩ + 31 * 86400 := by
  have h := expire_next_month_midnight ⟨2021, 1, 15, 12, 0, 0⟩ (by decide)
  exact ⟨h.1, h.2.1, h.2.2.2.1⟩

/-! ### Lemmas about names and the spliced query -/

theorem alphabet_no_quote : ∀ c ∈ alphabet, c ≠ '\x22' := by decide

theorem gen_random_mem (pick : Fin 6 → Fin 36) :
    ∀ c ∈ gen_random pick, c ∈ alphabet := by
  intro c hc
  unfold gen_random at hc
  rw [List.mem_ofFn] at hc
  obtain ⟨i, hi⟩ := hc
  rw [← hi]
  apply List.get_mem

theorem gen_random_length (pick : Fin 6 → Fin 36) :
    (gen_random pick).length = 6 := by
  simp [gen_random]

theorem gen_random_no_quote (pick : Fin 6 → Fin 36) :
    ∀ c ∈ gen_random pick, c ≠ '\x22' :=
  fun c hc => alphabet_no_quote c (gen_random_mem pick c hc)

/-- Parsing inverts splicing for quote-free names. -/
theorem parse_build (n : Name) (hq : ∀ c ∈ n, c ≠ '\x22') :
    parseCheckQuery (buildCheckQuery n) = some n := by
  unfold buildCheckQuery parseCheckQuery
  simp only [List.take_left, List.drop_left]
  have hlen : (n ++ queryTail).length - queryTail.length = n.length := by
    simp
  rw [hlen, List.take_left, List.drop_left]
  have hq2 : '\x22' ∉ n := fun hmem => hq _ hmem rfl
  simp [hq, hq2]

/-- For a quote-free name that resolves to no column, `check_name` is
exactly store membership. -/
theorem check_name_safe (store : Store) (n : Name) (hq : ∀ c ∈ n, c ≠ '\x22')
    (hcol : isColumnRef n = false) :
    check_name store n = .ok (containsName store n) := by
  unfold check_name sqlEvalCheck
  rw [parse_build n hq]
  simp [hcol]

/-- No 6-character token can name a column of `assets` (their names have
lengths 2, 15 and 11). -/
theorem gen_random_not_column (pick : Fin 6 → Fin 36) :
    isColumnRef (gen_random pick) = false := by
  cases hb : isColumnRef (gen_random pick) with
  | false => rfl
  | true =>
    exfalso
    obtain ⟨c, hc, hcd⟩ := List.any_eq_true.mp hb
    have hceq : c = (gen_random pick).map Char.toLower := of_decide_eq_true hcd
    rw [hceq] at hc
    simp [columnNames] at hc
    have hlen : ((gen_random pick).map Char.toLower).length = 6 := by
      rw [List.length_map, gen_random_length]
    rcases hc with h | h | h <;> rw [h] at hlen <;> simp at hlen

theorem check_name_gen (store : Store) (pick : Fin 6 → Fin 36) :
    check_name store (gen_random pick)
      = .ok (containsName store (gen_random pick)) :=
  check_name_safe store _ (gen_random_no_quote pick) (gen_random_not_column pick)

theorem containsName_false_iff (store : Store) (n : Name) :
    containsName store n = false ↔ n ∉ store.map Prod.fst := by
  unfold containsName
  constructor
  · intro h hmem
    rw [List.mem_map] at hmem
    obtain ⟨r, hr, hrn⟩ := hmem
    have : store.any (fun r => decide (r.1 = n)) = true :=
      List.any_eq_true.mpr ⟨r, hr, by simp [hrn]⟩
    rw [h] at this
    exact Bool.false_ne_true this
  · intro h
    by_contra hne
    have : store.any (fun r => decide (r.1 = n)) = true := by
      cases hb : store.any (fun r => decide (r.1 = n))
      · exact absurd hb hne
      · rfl
    obtain ⟨r, hr, hrn⟩ := List.any_eq_true.mp this
    exact h (List.mem_map.mpr ⟨r, hr, by simpa using hrn⟩)

/-! ### C10: the spliced SELECT on the restricted alphabet -/

/-- Whatever the rejection-sampling loop returns was absent from the store
when checked, and is an output of `gen_random`. -/
theorem findUnused_sound (fuel : ℕ) (picks : ℕ → Fin 6 → Fin 36) (i : ℕ)
    (store : Store) (c : Name) (j : ℕ)
    (h : findUnused fuel picks i store = some (c, j)) :
    containsName store c = false ∧ ∃ pick, c = gen_random pick := by
  induction fuel generalizing i with
  | zero => simp [findUnused] at h
  | succ fuel ih =>
    rw [findUnused, check_name_gen store (picks i)] at h
    cases hcn : containsName store (gen_random (picks i)) with
    | true =>
      rw [hcn] at h
      exact ih (i + 1) h
    | false =>
      rw [hcn] at h
      have h2 : (some (gen_random (picks i), i) : Option (Name × ℕ))
          = some (c, j) := h
      have h3 : gen_random (picks i) = c := by
        have := Option.some.inj h2
        exact congrArg Prod.fst this
      exact ⟨h3 ▸ hcn, picks i, h3.symm⟩

/-- If some candidate within fuel is unused, the loop finds one. -/
theorem findUnused_of_fresh (fuel : ℕ) (picks : ℕ → Fin 6 → Fin 36) (i : ℕ)
    (store : Store)
    (h : ∃ j, j < fuel ∧ containsName store (gen_random (picks (i + j))) = false) :
    ∃ c k, findUnused fuel picks i store = some (c, k) := by
  induction fuel generalizing i with
  | zero =>
    obtain ⟨j, hj, _⟩ := h
    omega
  | succ fuel ih =>
    rw [findUnused, check_name_gen store (picks i)]
    cases hcn : containsName store (gen_random (picks i)) with
    | false => exact ⟨gen_random (picks i), i, rfl⟩
    | true =>
      obtain ⟨j, hj, hfree⟩ := h
      have hj0 : j ≠ 0 := by
        intro h0
        rw [h0, Nat.add_zero, hcn] at hfree
        simp at hfree
      refine ih (i + 1) ⟨j - 1, by omega, ?_⟩
      rw [show i + 1 + (j - 1) = i + j by omega]
      exact hfree

/-- Anatomy of a successful sequential allocation: the returned name was
absent beforehand, is a `gen_random` output, carries `expireOf now`, and
the store grew by exactly that one row. -/
theorem alloc_ok (fuel : ℕ) (picks : ℕ → Fin 6 → Fin 36) (now : Datetime)
    (store : Store) (c : Name) (e : ℤ) (s2 : Store)
    (h : get_random_unused_obfuscated_name fuel picks now store (fun s => s)
        = .ok (c, e, s2)) :
    containsName store c = false ∧ (∃ pick, c = gen_random pick)
      ∧ e = expireOf now ∧ s2 = store ++ [(c, e)] := by
  unfold get_random_unused_obfuscated_name at h
  cases hfu : findUnused fuel picks 0 store with
  | none =>
    rw [hfu] at h
    exact absurd h (by simp)
  | some cj =>
    obtain ⟨c0, j⟩ := cj
    rw [hfu] at h
    obtain ⟨hfree, hgen⟩ := findUnused_sound fuel picks 0 store c0 j hfu
    have h4 : (match insertRow store c0 (expireOf now) with
        | Except.error _ => (Except.error AllocErr.duplicateName
            : Except AllocErr (Name × ℤ × Store))
        | Except.ok s3 => Except.ok (c0, expireOf now, s3)) = .ok (c, e, s2) := h
    rw [show insertRow store c0 (expireOf now)
        = .ok (store ++ [(c0, expireOf now)]) by simp [insertRow, hfree]] at h4
    have h2 : (Except.ok (c0, expireOf now, store ++ [(c0, expireOf now)])
        : Except AllocErr (Name × ℤ × Store)) = .ok (c, e, s2) := h4
    have h3 := Except.ok.inj h2
    obtain ⟨hc, he, hs⟩ : c0 = c ∧ expireOf now = e
        ∧ store ++ [(c0, expireOf now)] = s2 := by
      refine ⟨congrArg Prod.fst h3, ?_, ?_⟩
      · exact congrArg (fun x => x.2.1) h3
      · exact congrArg (fun x => x.2.2) h3
    subst hc
    exact ⟨hfree, hgen, he.symm, by rw [← hs, ← he]⟩

/-! ### C2: duplicate-name handling of the allocator -/

/-- C2, counterexample: the claim says a uniqueness violation at the INSERT
is absorbed by retrying.  It is not: the INSERT (request_name.py:45) is not
wrapped in any try/except, so when a concurrent writer inserts the same
candidate between the existence check and the INSERT, the constraint
violation (`sqlite3.IntegrityError`) propagates to the caller.  Concretely:
empty store, candidate stream constantly `"aaaaaa"`, interference that
inserts `"aaaaaa"` after the check — the call surfaces the duplicate-name
condition instead of retrying. -/
theorem alloc_dup_propagates_cx :
    get_random_unused_obfuscated_name 3 (fun _ _ => 0) nowW []
      (fun s => s ++ [(gen_random (fun _ => 0), 0)])
    = .error .duplicateName := by
  rfl

/-- C2, amended: only duplicates detected by the pre-insert existence check
are absorbed (the loop regenerates): in sequential execution — no writes
between the check and the INSERT — a duplicate-name condition is never
surfaced, and the call succeeds as soon as any candidate in the stream is
unused.  A duplicate arising between check and INSERT, however, propagates
(see the counterexample). -/
theorem alloc_seq_absorbs_collisions (fuel : ℕ) (picks : ℕ → Fin 6 → Fin 36)
    (now : Datetime) (store : Store) (j : ℕ) (hj : j < fuel)
    (hfresh : containsName store (gen_random (picks j)) = false) :
    (∀ (fuel' : ℕ) (picks' : ℕ → Fin 6 → Fin 36) (store' : Store),
        get_random_unused_obfuscated_name fuel' picks' now store' (fun s => s)
          ≠ .error .duplicateName)
  ∧ isOk (get_random_unused_obfuscated_name fuel picks now store (fun s => s))
      = true := by
  constructor
  · intro fuel' picks' store' h
    unfold get_random_unused_obfuscated_name at h
    cases hfu : findUnused fuel' picks' 0 store' with
    | none =>
      rw [hfu] at h
      exact absurd h (by simp)
    | some cj =>
      obtain ⟨c0, k⟩ := cj
      rw [hfu] at h
      obtain ⟨hfree, _⟩ := findUnused_sound fuel' picks' 0 store' c0 k hfu
      have h4 : (match insertRow store' c0 (expireOf now) with
          | Except.error _ => (Except.error AllocErr.duplicateName
              : Except AllocErr (Name × ℤ × Store))
          | Except.ok s3 => Except.ok (c0, expireOf now, s3))
          = .error .duplicateName := h
      rw [show insertRow store' c0 (expireOf now)
          = .ok (store' ++ [(c0, expireOf now)]) by simp [insertRow, hfree]] at h4
      exact absurd h4 (by simp)
  · obtain ⟨c, k, hfu⟩ := findUnused_of_fresh fuel picks 0 store
      ⟨j, hj, by simpa using hfresh⟩
    obtain ⟨hfree, _⟩ := findUnused_sound fuel picks 0 store c k hfu
    unfold get_random_unused_obfuscated_name
    rw [hfu]
    show isOk (match insertRow store c (expireOf now) with
      | Except.error _ => (Except.error AllocErr.duplicateName
          : Except AllocErr (Name × ℤ × Store))
      | Except.ok s3 => Except.ok (c, expireOf now, s3)) = true
    rw [show insertRow store c (expireOf now)
        = .ok (store ++ [(c, expireOf now)]) by simp [insertRow, hfree]]
    rfl

/-- C2, witness: a store already holding `"aaaaaa"`, a stream whose first
candidate collides and whose second (`"bbbbbb"`) is fresh: the call
succeeds — the collision was absorbed — and never surfaces a duplicate. -/
theorem alloc_seq_absorbs_collisions_wit :
    (get_random_unused_obfuscated_name 2
        (fun k _ => (⟨k % 36, by omega⟩ : Fin 36)) nowW
        [(gen_random (fun _ => 0), 5)] (fun s => s)
      ≠ .error .duplicateName)
  ∧ isOk (get_random_unused_obfuscated_name 2
        (fun k _ => (⟨k % 36, by omega⟩ : Fin 36)) nowW
        [(gen_random (fun _ => 0), 5)] (fun s => s)) = true := by
  have h := alloc_seq_absorbs_collisions 2
    (fun k _ => (⟨k % 36, by omega⟩ : Fin 36)) nowW
    [(gen_random (fun _ => 0), 5)] 1 (by omega) (by rfl)
  exact ⟨h.1 2 _ _, h.2⟩

/-! ### C4: distinctness across sequential allocations -/

/-- From `Nodup`, an element is never among its predecessors. -/
theorem nodup_get_not_mem_take {α : Type} (l : List α) (h : l.Nodup) (k : ℕ)
    (hk : k < l.length) : l.get ⟨k, hk⟩ ∉ l.take k := by
  intro hmem
  obtain ⟨i, hi, hgi⟩ := List.getElem_of_mem hmem
  have hik : i < k := by
    have h2 := hi
    simp [List.length_take] at h2
    omega
  have hil : i < l.length := by omega
  have hgt := @List.getElem_take α l k i hi
  rw [hgt, List.get_eq_getElem] at hgi
  have h3 := (List.Nodup.getElem_inj_iff h).mp hgi
  simp at h3
  omega

/-- Invariant of `n` sequential allocations: the final store's name column
is the initial one extended by exactly the returned names, and name-column
uniqueness is preserved. -/
theorem allocN_sound (fuel : ℕ) (now : Datetime) (n : ℕ) :
    ∀ (picksN : ℕ → ℕ → Fin 6 → Fin 36) (store : Store) (names : List Name)
      (final : Store),
      allocN fuel picksN now n store = .ok (names, final) →
      final.map Prod.fst = store.map Prod.fst ++ names
        ∧ ((store.map Prod.fst).Nodup → (store.map Prod.fst ++ names).Nodup) := by
  induction n with
  | zero =>
    intro picksN store names final h
    have h2 : (Except.ok (([] : List Name), store)
        : Except AllocErr (List Name × Store)) = .ok (names, final) := h
    have h3 := Except.ok.inj h2
    have hn : names = [] := (congrArg Prod.fst h3).symm
    have hf : final = store := (congrArg Prod.snd h3).symm
    subst hn hf
    simp
  | succ n ih =>
    intro picksN store names final h
    unfold allocN at h
    cases halloc : get_random_unused_obfuscated_name fuel (picksN 0) now store
        (fun s => s) with
    | error e =>
      rw [halloc] at h
      exact absurd h (by simp)
    | ok out =>
      obtain ⟨c, e, s2⟩ := out
      rw [halloc] at h
      obtain ⟨hfree, _, he, hs2⟩ :=
        alloc_ok fuel (picksN 0) now store c e s2 halloc
      have h5 : (match allocN fuel (fun k => picksN (k + 1)) now n s2 with
          | Except.error e2 => (Except.error e2
              : Except AllocErr (List Name × Store))
          | Except.ok (names2, final2) => Except.ok (c :: names2, final2))
          = .ok (names, final) := h
      cases hrec : allocN fuel (fun k => picksN (k + 1)) now n s2 with
      | error e2 =>
        rw [hrec] at h5
        exact absurd h5 (by simp)
      | ok out2 =>
        obtain ⟨names2, final2⟩ := out2
        rw [hrec] at h5
        have h3 := Except.ok.inj h5
        have hn : names = c :: names2 := (congrArg Prod.fst h3).symm
        have hf : final = final2 := (congrArg Prod.snd h3).symm
        subst hn hf
        obtain ⟨ih1, ih2⟩ := ih (fun k => picksN (k + 1)) s2 names2 final hrec
        have hmap : s2.map Prod.fst = store.map Prod.fst ++ [c] := by
          rw [hs2]
          simp
        constructor
        · rw [ih1, hmap, List.append_assoc, List.singleton_append]
        · intro hnd
          have hc : c ∉ store.map Prod.fst :=
            (containsName_false_iff store c).mp hfree
          have hnd2 : (s2.map Prod.fst).Nodup := by
            rw [hmap]
            exact List.Nodup.append hnd (List.nodup_singleton c)
              (by simpa using hc)
          have := ih2 hnd2
          rw [hmap, List.append_assoc, List.singleton_append] at this
          exact this

/-- C4: starting from an empty store, the names returned by `n` sequential
allocation calls are pairwise distinct, the final store holds exactly one
row per returned name (in call order), and each name is absent from
everything allocated before it — so it was absent from the store
immediately prior to the call that returned it. -/
theorem allocN_distinct (fuel n : ℕ) (picksN : ℕ → ℕ → Fin 6 → Fin 36)
    (now : Datetime) (names : List Name) (final : Store)
    (h : allocN fuel picksN now n [] = .ok (names, final)) :
    names.Nodup ∧ final.map Prod.fst = names
      ∧ ∀ (k : ℕ) (hk : k < names.length), names.get ⟨k, hk⟩ ∉ names.take k := by
  obtain ⟨h1, h2⟩ := allocN_sound fuel now n picksN [] names final h
  have hnd : names.Nodup := by simpa using h2 (by simp)
  refine ⟨hnd, by simpa using h1, ?_⟩
  intro k hk
  exact nodup_get_not_mem_take names hnd k hk

/-- C4, witness: two allocations from the empty store with candidate
streams yielding `"aaaaaa"` then `"bbbbbb"`. -/
theorem allocN_distinct_wit :
    ([['a', 'a', 'a', 'a', 'a', 'a'], ['b', 'b', 'b', 'b', 'b', 'b']]
        : List Name).Nodup
  ∧ ([(['a', 'a', 'a', 'a', 'a', 'a'], (1613347200 : ℤ)),
      (['b', 'b', 'b', 'b', 'b', 'b'], (1613347200 : ℤ))] : Store).map Prod.fst
      = [['a', 'a', 'a', 'a', 'a', 'a'], ['b', 'b', 'b', 'b', 'b', 'b']] := by
  have h := allocN_distinct 1 2 (fun k _ _ => (⟨k % 36, by omega⟩ : Fin 36))
    nowW [['a', 'a', 'a', 'a', 'a', 'a'], ['b', 'b', 'b', 'b', 'b', 'b']]
    [(['a', 'a', 'a', 'a', 'a', 'a'], (1613347200 : ℤ)),
     (['b', 'b', 'b', 'b', 'b', 'b'], (1613347200 : ℤ))] (by rfl)
  exact ⟨h.1, h.2.1⟩

/-! ### C7: allocate-then-check round trip -/

/-- C7: for every store state, a name returned by a (sequential) allocation
call is reported as existing by `check_name` run on the resulting store:
the INSERT itself is the reservation — there is no separate reserve/commit
step whose omission could make the check miss it. -/
theorem alloc_then_check (fuel : ℕ) (picks : ℕ → Fin 6 → Fin 36)
    (now : Datetime) (store : Store) (c : Name) (e : ℤ) (s2 : Store)
    (h : get_random_unused_obfuscated_name fuel picks now store (fun s => s)
        = .ok (c, e, s2)) :
    check_name s2 c = .ok true := by
  obtain ⟨_, ⟨pick, hgen⟩, _, hs2⟩ :=
    alloc_ok fuel picks now store c e s2 h
  have hq : ∀ ch ∈ c, ch ≠ '\x22' := by
    rw [hgen]
    exact gen_random_no_quote pick
  have hcol : isColumnRef c = false := by
    rw [hgen]
    exact gen_random_not_column pick
  rw [check_name_safe s2 c hq hcol, hs2]
  unfold containsName
  simp

/-- C7, witness: one allocation from the empty store at `nowW`; the
resulting store reports the returned name `"aaaaaa"` as existing. -/
theorem alloc_then_check_wit :
    check_name [(['a', 'a', 'a', 'a', 'a', 'a'], (1613347200 : ℤ))]
      ['a', 'a', 'a', 'a', 'a', 'a'] = .ok true := by
  exact alloc_then_check 1 (fun _ _ => 0) nowW []
    ['a', 'a', 'a', 'a', 'a', 'a'] 1613347200
    [(['a', 'a', 'a', 'a', 'a', 'a'], (1613347200 : ℤ))] (by rfl)

/-! ### C9: the SQLite context manager is a scoped resource -/

/-- C9: on every exit path of the `with SQLite(...)` block — the body is an
arbitrary state transformer, so this covers bodies that end in an
exception — `__exit__` has committed the pending writes into the durable
database and closed the connection; the body's result (value or exception)
is passed through unchanged.  The last conjunct spells the error path out:
if the body raised, the connection is still closed with nothing left
pending. -/
theorem withSQLite_commits_and_closes {E α : Type} (db0 : List Row)
    (body : ConnState → Except E α × ConnState) :
    (withSQLite db0 body).2.isOpen = false
  ∧ (withSQLite db0 body).2.pending = []
  ∧ (withSQLite db0 body).2.db
      = (body (sqliteEnter db0)).2.db ++ (body (sqliteEnter db0)).2.pending
  ∧ (withSQLite db0 body).1 = (body (sqliteEnter db0)).1
  ∧ ∀ er : E, (body (sqliteEnter db0)).1 = .error er →
      (withSQLite db0 body).2.isOpen = false
        ∧ (withSQLite db0 body).2.pending = [] := by
  refine ⟨rfl, rfl, rfl, rfl, fun er _ => ⟨rfl, rfl⟩⟩

/-- C9, witness: a body that buffers one write and then raises; after the
block, the connection is closed, nothing is pending, and the write was
committed. -/
theorem withSQLite_commits_and_closes_wit :
    (withSQLite ([] : List Row)
        (fun c => ((Except.error () : Except Unit Unit),
          { c with pending := [(['a'], (3 : ℤ))] }))).2.isOpen = false
  ∧ (withSQLite ([] : List Row)
        (fun c => ((Except.error () : Except Unit Unit),
          { c with pending := [(['a'], (3 : ℤ))] }))).2.pending = [] := by
  have h := withSQLite_commits_and_closes ([] : List Row)
    (fun c => ((Except.error () : Except Unit Unit),
      { c with pending := [(['a'], (3 : ℤ))] }))
  exact ⟨(h.2.2.2.2 () rfl).1, h.2.1⟩

/-! ### Lemmas about the negotiation -/

/-- An unencrypted signing key opens immediately, with no prompt. -/
theorem openKey_unencrypted (kf : KeyFile) (prompts : ℕ → String) (fuel : ℕ)
    (henc : kf.encrypted = false) (hsign : kf.canSign = true) (hfuel : 1 ≤ fuel) :
    openKey fuel kf prompts = some (kf.canSign, 0) := by
  obtain ⟨f, rfl⟩ : ∃ f, fuel = f + 1 := ⟨fuel - 1, by omega⟩
  simp [openKey, openKeyGo, henc, hsign]

/-- Every `exhausted` outcome of the key phase carries the endpoint-naming
message. -/
theorem keyPhase_exhausted_msg (env : Env) (hostname : String) (port : ℕ)
    (username : String) (keyfile : Option KeyFile) (prompts : ℕ → String)
    (fuel : ℕ) (tried tried2 : List Method) (msg : String)
    (h : keyPhase env hostname port username keyfile prompts fuel tried
        = .exhausted tried2 msg) :
    msg = connMsg username hostname port := by
  unfold keyPhase at h
  cases keyfile with
  | none => exact (InitResult.exhausted.inj h).2.symm
  | some kf =>
    have h2 : (match openKey fuel kf prompts with
        | none => InitResult.diverged tried
        | some _ =>
          match env.keyAttempt with
          | ConnectResult.ok auth =>
            if auth = true then
              InitResult.authenticated Method.key (tried ++ [Method.key])
            else
              InitResult.exhausted (tried ++ [Method.key])
                (connMsg username hostname port)
          | ConnectResult.raiseBadAuthType =>
            InitResult.exhausted (tried ++ [Method.key])
              (connMsg username hostname port)
          | ConnectResult.raiseAuthFailed =>
            InitResult.raised (tried ++ [Method.key]))
        = InitResult.exhausted tried2 msg := h
    cases hok : openKey fuel kf prompts with
    | none =>
      rw [hok] at h2
      exact absurd h2 (by simp)
    | some pr =>
      rw [hok] at h2
      cases hatt : env.keyAttempt with
      | ok auth =>
        rw [hatt] at h2
        cases auth with
        | true => simp at h2
        | false => exact (InitResult.exhausted.inj (by simpa using h2)).2.symm
      | raiseBadAuthType =>
        rw [hatt] at h2
        exact (InitResult.exhausted.inj h2).2.symm
      | raiseAuthFailed =>
        rw [hatt] at h2
        simp at h2

/-! ### C5: priority order, flag re-check, BadAuthenticationType tolerance -/

/-- C5: the negotiation tries the password first and stops at the first
success (key untried); only the re-checked `authenticated` flag counts —
a `connect` call that returns with the flag down is not a success; and a
`BadAuthenticationType` rejection merely advances to the next method. -/
theorem sftpInit_order_and_flag (env : Env) (hostname : String) (port : ℕ)
    (username : String) (password : Option String) (keyfile : Option KeyFile)
    (prompts : ℕ → String) (fuel : ℕ) :
    (pwTruthy password = true → env.passwordAttempt = .ok true →
      sftpInit env hostname port username password keyfile prompts fuel
        = .authenticated .password [.password])
  ∧ (pwTruthy password = true → env.passwordAttempt = .raiseBadAuthType →
      ∀ kf : KeyFile, keyfile = some kf → kf.encrypted = false →
        kf.canSign = true → 1 ≤ fuel → env.keyAttempt = .ok true →
        sftpInit env hostname port username password keyfile prompts fuel
          = .authenticated .key [.password, .key])
  ∧ (pwTruthy password = true → env.passwordAttempt = .ok false →
      keyfile = none →
      sftpInit env hostname port username password keyfile prompts fuel
        = .exhausted [.password] (connMsg username hostname port)) := by
  refine ⟨?_, ?_, ?_⟩
  · intro hpw hatt
    simp [sftpInit, hpw, hatt]
  · intro hpw hatt kf hkf henc hsign hfuel hkey
    subst hkf
    have hok := openKey_unencrypted kf prompts fuel henc hsign hfuel
    simp [sftpInit, hpw, hatt, keyPhase, hok, hkey]
  · intro hpw hatt hkf
    subst hkf
    simp [sftpInit, hpw, hatt, keyPhase]

/-- C5, witness: password accepted with the flag up → authenticated via the
password path only; instantiated for the fall-through conjunct too. -/
theorem sftpInit_order_and_flag_wit :
    sftpInit ⟨.ok true, .raiseAuthFailed⟩ "host" 22 "user" (some "pw") none
        (fun _ => "") 1 = .authenticated .password [.password]
  ∧ sftpInit ⟨.raiseBadAuthType, .ok true⟩ "host" 22 "user" (some "pw")
        (some ⟨false, "", true⟩) (fun _ => "") 1
      = .authenticated .key [.password, .key]
  ∧ sftpInit ⟨.ok false, .ok true⟩ "host" 22 "user" (some "pw") none
        (fun _ => "") 1
      = .exhausted [.password] (connMsg "user" "host" 22) := by
  refine ⟨?_, ?_, ?_⟩
  · exact (sftpInit_order_and_flag ⟨.ok true, .raiseAuthFailed⟩ "host" 22 "user"
      (some "pw") none (fun _ => "") 1).1 rfl rfl
  · exact (sftpInit_order_and_flag ⟨.raiseBadAuthType, .ok true⟩ "host" 22 "user"
      (some "pw") (some ⟨false, "", true⟩) (fun _ => "") 1).2.1 rfl rfl
      ⟨false, "", true⟩ rfl rfl rfl (by omega) rfl
  · exact (sftpInit_order_and_flag ⟨.ok false, .ok true⟩ "host" 22 "user"
      (some "pw") none (fun _ => "") 1).2.2 rfl rfl rfl

/-! ### C3: a wrong password and a valid unencrypted key -/

/-- C3, counterexample: the claim says a password the remote rejects as
wrong falls through to the key path.  paramiko signals a wrong credential
by raising `AuthenticationException`, which is not
`BadAuthenticationType` — and client/main.py:45 catches only the latter —
so the negotiation aborts with the exception escaping `__init__` instead
of authenticating via the (perfectly valid, unencrypted) key. -/
theorem sftp_wrong_password_aborts_cx :
    sftpInit ⟨.raiseAuthFailed, .ok true⟩ "host" 22 "user" (some "pw")
        (some ⟨false, "", true⟩) (fun _ => "") 1 = .raised [.password] := by
  rfl

/-- C3, amended: the failed password attempt is absorbed and the valid
unencrypted key authenticates exactly when the password rejection surfaces
as `BadAuthenticationType` (method unsupported) or as a returned call with
the `authenticated` flag down; a rejection raised as any other
authentication failure propagates and aborts the negotiation (see the
counterexample). -/
theorem sftp_password_fallthrough (env : Env) (hostname : String) (port : ℕ)
    (username : String) (s : String) (kf : KeyFile) (prompts : ℕ → String)
    (fuel : ℕ) (hpw : s ≠ "")
    (hatt : env.passwordAttempt = .raiseBadAuthType
      ∨ env.passwordAttempt = .ok false)
    (henc : kf.encrypted = false) (hsign : kf.canSign = true)
    (hfuel : 1 ≤ fuel) (hkey : env.keyAttempt = .ok true) :
    sftpInit env hostname port username (some s) (some kf) prompts fuel
      = .authenticated .key [.password, .key] := by
  have hpwt : pwTruthy (some s) = true := by
    simp [pwTruthy, hpw]
  have hok := openKey_unencrypted kf prompts fuel henc hsign hfuel
  rcases hatt with h | h <;>
    simp [sftpInit, hpwt, h, keyPhase, hok, hkey]

/-- C3, witness: wrong password surfacing as `BadAuthenticationType`, plus
a valid unencrypted key → authenticated via the key path. -/
theorem sftp_password_fallthrough_wit :
    sftpInit ⟨.raiseBadAuthType, .ok true⟩ "host" 22 "user" (some "pw")
        (some ⟨false, "", true⟩) (fun _ => "") 1
      = .authenticated .key [.password, .key] := by
  exact sftp_password_fallthrough ⟨.raiseBadAuthType, .ok true⟩ "host" 22 "user"
    "pw" ⟨false, "", true⟩ (fun _ => "") 1 (by decide) (Or.inl rfl) rfl rfl
    (by omega) rfl

/-! ### C6: the passphrase re-prompt loop -/

/-- Generalised behaviour of the decryption loop from any prompt index:
`k` wrong passphrases are each absorbed by a fresh prompt, and the first
correct one ends the loop with a signing-capable key. -/
theorem openKeyGo_spec (kf : KeyFile) (prompts : ℕ → String)
    (henc : kf.encrypted = true) (hsign : kf.canSign = true) :
    ∀ (k fuel i : ℕ), (∀ j, j < k → prompts (i + j) ≠ kf.correctPass) →
      prompts (i + k) = kf.correctPass → k < fuel →
      openKeyGo fuel kf prompts i = some (true, i + k + 1) := by
  intro k
  induction k with
  | zero =>
    intro fuel i hw hr hf
    obtain ⟨f, rfl⟩ : ∃ f, fuel = f + 1 := ⟨fuel - 1, by omega⟩
    rw [Nat.add_zero] at hr
    simp [openKeyGo, henc, hsign, hr]
  | succ k ih =>
    intro fuel i hw hr hf
    obtain ⟨f, rfl⟩ : ∃ f, fuel = f + 1 := ⟨fuel - 1, by omega⟩
    have hwi : ¬ prompts i = kf.correctPass := by
      have h0 := hw 0 (by omega)
      rw [Nat.add_zero] at h0
      exact h0
    have hstep : openKeyGo (f + 1) kf prompts i = openKeyGo f kf prompts (i + 1) := by
      simp [openKeyGo, henc, hwi]
    rw [hstep]
    have hrec := ih f (i + 1)
      (fun j hj => by
        have hj2 := hw (j + 1) (by omega)
        rw [show i + 1 + j = i + (j + 1) by omega]
        exact hj2)
      (by rw [show i + 1 + k = i + (k + 1) by omega]; exact hr)
      (by omega)
    rw [hrec, show i + 1 + k + 1 = i + (k + 1) + 1 by omega]

/-- C6: with an encrypted signing key whose correct passphrase is first
typed on attempt `k + 1` (all earlier prompts wrong), `open_key` re-prompts
after each rejection instead of failing, returns a signing-capable key,
and issues exactly `k + 1` prompts — for the spec's `[wrong, wrong,
correct]` sequence, exactly 3, never fewer. -/
theorem openKey_reprompts (kf : KeyFile) (prompts : ℕ → String) (k fuel : ℕ)
    (henc : kf.encrypted = true) (hsign : kf.canSign = true)
    (hwrong : ∀ j, j < k → prompts j ≠ kf.correctPass)
    (hright : prompts k = kf.correctPass) (hfuel : k < fuel) :
    openKey fuel kf prompts = some (true, k + 1) := by
  have h := openKeyGo_spec kf prompts henc hsign k fuel 0
    (fun j hj => by rw [Nat.zero_add]; exact hwrong j hj)
    (by rw [Nat.zero_add]; exact hright) hfuel
  rw [openKey, h, Nat.zero_add]

/-- C6, witness: encrypted signing key, prompts `[wrong, wrong, right]` →
key opened, exactly 3 prompts. -/
theorem openKey_reprompts_wit :
    openKey 5 ⟨true, "right", true⟩
      (fun i => if i < 2 then "wrong" else "right") = some (true, 3) := by
  have h := openKey_reprompts ⟨true, "right", true⟩
    (fun i => if i < 2 then "wrong" else "right") 2 5 rfl rfl
    (by decide) (by norm_num) (by omega)
  exact h

/-! ### C8: no candidates → Exhausted, with a descriptive message -/

/-- C8: with no password and no keyfile both branches are skipped, and the
negotiation fails as exhausted with an empty trace of tried methods;
moreover every exhausted outcome — whatever the inputs — carries the
message naming the identity (username) and endpoint (hostname:port). -/
theorem sftpInit_no_candidates_exhausted (env : Env) (hostname : String)
    (port : ℕ) (username : String) (prompts : ℕ → String) (fuel : ℕ) :
    sftpInit env hostname port username none none prompts fuel
      = .exhausted [] (connMsg username hostname port)
  ∧ ∀ (password : Option String) (keyfile : Option KeyFile)
      (tried : List Method) (msg : String),
      sftpInit env hostname port username password keyfile prompts fuel
        = .exhausted tried msg → msg = connMsg username hostname port := by
  constructor
  · simp [sftpInit, pwTruthy, keyPhase]
  · intro password keyfile tried msg h
    unfold sftpInit at h
    by_cases hpw : pwTruthy password = true
    · rw [if_pos hpw] at h
      cases hatt : env.passwordAttempt with
      | ok auth =>
        rw [hatt] at h
        cases auth with
        | true => simp at h
        | false =>
          exact keyPhase_exhausted_msg env hostname port username keyfile
            prompts fuel [.password] tried msg (by simpa using h)
      | raiseBadAuthType =>
        rw [hatt] at h
        exact keyPhase_exhausted_msg env hostname port username keyfile
          prompts fuel [.password] tried msg h
      | raiseAuthFailed =>
        rw [hatt] at h
        simp at h
    · rw [if_neg hpw] at h
      exact keyPhase_exhausted_msg env hostname port username keyfile
        prompts fuel [] tried msg h

/-- C8, witness: concrete endpoint and identity; the message spells out
`user@host:22`. -/
theorem sftpInit_no_candidates_exhausted_wit :
    sftpInit ⟨.ok true, .ok true⟩ "host" 22 "user" none none (fun _ => "") 0
      = .exhausted [] (connMsg "user" "host" 22)
  ∧ connMsg "user" "host" 22
      = "Could not connect to user@host:22 using provided auth method(s)" := by
  have h := sftpInit_no_candidates_exhausted ⟨.ok true, .ok true⟩ "host" 22
    "user" (fun _ => "") 0
  refine ⟨h.1, ?_⟩
  decide
